import Mathlib

/-!
Verification of the qtb experiment execution engine (`aioquic/qtb/runs.py`,
with the status store from `aioquic/qtb/utils.py`).

The engine is embedded shallowly: external effects (the `tc` shell-outs, the
server/client OS processes, status-file writes) are recorded as an event
trace, and the outcomes of the external world (whether a `tc` command exits 0,
the client's exit code, whether the server exits within the grace timeout,
whether a modelled exception point fires) are supplied by an `Env` record.
Numbers that Python stores as floats are modelled as rationals; the textual
rendering of a number inside a command argument is kept abstract by giving
numeric arguments their own constructors, which preserves exactly the
information the commands carry.
-/

/-- One argument of a `tc` command line.  Plain words are `lit`; numeric
arguments keep the number itself (`f"{bw_mbit}mbit"`, `f"{delay_ms}ms"`,
`f"{loss_pct}%"` in the source). -/
inductive TcArg where
  | lit (s : String)
  | rateMbit (q : ℚ)
  | delayMs (q : ℚ)
  | lossPct (q : ℚ)
deriving DecidableEq

/-- One executed `tc` command: its argument list and whether it was run with
`check=True` (so that a non-zero exit raises `CalledProcessError`). -/
structure TcCall where
  args : List TcArg
  check : Bool
deriving DecidableEq

/-- `subprocess.run(cmd, check=check)`: the command always executes (so it is
always recorded); it raises exactly when `check` is set and the command exits
non-zero.  `exec` is the environment's verdict on each command line. -/
def subprocessRun (exec : List TcArg → Bool) (args : List TcArg) (check : Bool) :
    TcCall × Except (List TcArg) Unit :=
  (⟨args, check⟩, if check && !(exec args) then Except.error args else Except.ok ())

/-- `_run_tc(cmd)`: `subprocess.run(cmd, check=True)` plus a debug print. -/
def runTcChecked (exec : List TcArg → Bool) (args : List TcArg) :
    TcCall × Except (List TcArg) Unit :=
  subprocessRun exec args true

/-- `["tc", "qdisc", "del", "dev", iface, "root"]`. -/
def tcDelArgs (iface : String) : List TcArg :=
  [.lit "tc", .lit "qdisc", .lit "del", .lit "dev", .lit iface, .lit "root"]

/-- The HTB root qdisc command installed when bandwidth shaping is requested. -/
def htbRootArgs (iface : String) : List TcArg :=
  [.lit "tc", .lit "qdisc", .lit "add", .lit "dev", .lit iface,
   .lit "root", .lit "handle", .lit "1:", .lit "htb", .lit "default", .lit "1"]

/-- The single HTB traffic class, capped at `bw_mbit` (`f"{bw_mbit}mbit"`). -/
def htbClassArgs (iface : String) (bw_mbit : ℚ) : List TcArg :=
  [.lit "tc", .lit "class", .lit "add", .lit "dev", .lit iface,
   .lit "parent", .lit "1:", .lit "classid", .lit "1:1",
   .lit "htb", .lit "rate", .rateMbit bw_mbit]

/-- The netem command: either a child of class `1:1` (bandwidth branch) or the
root qdisc, followed by `delay`/`loss` arguments added under the source's
truthiness tests `if delay_ms:` and `if loss_pct:`. -/
def netemArgs (child : Bool) (iface : String) (delay_ms loss_pct : ℚ) : List TcArg :=
  (if child then
    [TcArg.lit "tc", .lit "qdisc", .lit "add", .lit "dev", .lit iface,
     .lit "parent", .lit "1:1", .lit "handle", .lit "10:", .lit "netem"]
   else
    [TcArg.lit "tc", .lit "qdisc", .lit "add", .lit "dev", .lit iface,
     .lit "root", .lit "netem"])
  ++ (if delay_ms ≠ 0 then [TcArg.delayMs delay_ms] else [])
  ++ (if loss_pct ≠ 0 then [TcArg.lossPct loss_pct] else [])

/-- `apply_netem(iface, rtt_ms, loss_pct, bw_mbit, delay_ms)` from
`runs.py`: best-effort clear (`check=False`), then — under the float
truthiness test `if bw_mbit:` — HTB root, HTB class and netem child, or else
netem directly on root; each install step uses `_run_tc` (`check=True`) and
the first failure aborts the rest and propagates.  `rtt_ms` is logged only.
Returns the executed commands and either success or the failing command. -/
def apply_netem (exec : List TcArg → Bool) (iface : String)
    (rtt_ms loss_pct bw_mbit delay_ms : ℚ) :
    List TcCall × Except (List TcArg) Unit :=
  let _ := rtt_ms
  let (c0, _) := subprocessRun exec (tcDelArgs iface) false
  if bw_mbit ≠ 0 then
    let (c1, r1) := runTcChecked exec (htbRootArgs iface)
    match r1 with
    | Except.error e => ([c0, c1], Except.error e)
    | Except.ok _ =>
      let (c2, r2) := runTcChecked exec (htbClassArgs iface bw_mbit)
      match r2 with
      | Except.error e => ([c0, c1, c2], Except.error e)
      | Except.ok _ =>
        let (c3, r3) := runTcChecked exec (netemArgs true iface delay_ms loss_pct)
        ([c0, c1, c2, c3], r3)
  else
    let (c1, r1) := runTcChecked exec (netemArgs false iface delay_ms loss_pct)
    ([c0, c1], r1)

/-- `reset_netem(iface)`: best-effort delete of the root qdisc with
`check=False`; the result of the shell-out is returned as-is so that never
raising is a provable consequence of `check=False`, not an assumption. -/
def reset_netem (exec : List TcArg → Bool) (iface : String) :
    List TcCall × Except (List TcArg) Unit :=
  let (c0, r0) := subprocessRun exec (tcDelArgs iface) false
  ([c0], r0)

/-- The commands `apply_netem` installs when every command succeeds. -/
def installTrace (iface : String) (rtt_ms loss_pct bw_mbit delay_ms : ℚ) :
    List TcCall :=
  (apply_netem (fun _ => true) iface rtt_ms loss_pct bw_mbit delay_ms).1

/-- Modelled from the spec: the shaping structure the specification describes
for `apply` — rate-limited structure exactly when the profile's bandwidth is
greater than 0, netem directly on root otherwise, loss argument iff the loss
percentage is non-zero.  Written from the spec's words, to be compared with
the source-derived `installTrace`. -/
def specInstallTrace (iface : String) (rtt_ms loss_pct bw_mbit delay_ms : ℚ) :
    List TcCall :=
  let _ := rtt_ms
  if 0 < bw_mbit then
    [⟨tcDelArgs iface, false⟩, ⟨htbRootArgs iface, true⟩,
     ⟨htbClassArgs iface bw_mbit, true⟩,
     ⟨netemArgs true iface delay_ms loss_pct, true⟩]
  else
    [⟨tcDelArgs iface, false⟩, ⟨netemArgs false iface delay_ms loss_pct, true⟩]

/-- The amended shaping structure: identical to `specInstallTrace` except
that the rate-limited branch is selected by bandwidth ≠ 0 (the source's float
truthiness), which coincides with > 0 for non-negative bandwidth. -/
def amendedInstallTrace (iface : String) (rtt_ms loss_pct bw_mbit delay_ms : ℚ) :
    List TcCall :=
  let _ := rtt_ms
  if bw_mbit ≠ 0 then
    [⟨tcDelArgs iface, false⟩, ⟨htbRootArgs iface, true⟩,
     ⟨htbClassArgs iface bw_mbit, true⟩,
     ⟨netemArgs true iface delay_ms loss_pct, true⟩]
  else
    [⟨tcDelArgs iface, false⟩, ⟨netemArgs false iface delay_ms loss_pct, true⟩]

/-- C6 counterexample: at a (physically meaningless but type-correct)
negative bandwidth, the code takes the rate-limiting branch (`if bw_mbit:` is
float truthiness, i.e. ≠ 0) while the claim's "greater than 0 … otherwise
netem as root" dictates the root-netem shape, so the installed structure
differs from the claimed one at this concrete profile. -/
theorem apply_netem_bw_sign_cex :
    installTrace "lo" 10 0 (-1) 5 ≠ specInstallTrace "lo" 10 0 (-1) 5 := by
  decide

/-- C6 amended: for every profile `apply_netem` installs exactly the claimed
structure with "bandwidth greater than 0" weakened to "bandwidth non-zero":
a rate-limiting root discipline with a single class capped at exactly the
profile's bandwidth and the netem as its child when bandwidth ≠ 0, netem
directly on root otherwise; the `loss` argument appears iff `loss_pct ≠ 0`
(the loss-iff part is carried by `netemArgs`, shared by both sides). -/
theorem apply_netem_install_structure (iface : String)
    (rtt_ms loss_pct bw_mbit delay_ms : ℚ) :
    installTrace iface rtt_ms loss_pct bw_mbit delay_ms
      = amendedInstallTrace iface rtt_ms loss_pct bw_mbit delay_ms := by
  unfold installTrace apply_netem amendedInstallTrace
  by_cases h : bw_mbit ≠ 0 <;>
    simp [h, runTcChecked, subprocessRun]

/-- The loss argument is present in the netem command iff the profile's loss
percentage is non-zero (stated separately so the claim's iff is explicit and
not only a consequence of definitional sharing). -/
theorem netemArgs_loss_iff (child : Bool) (iface : String) (delay_ms loss_pct : ℚ) :
    TcArg.lossPct loss_pct ∈ netemArgs child iface delay_ms loss_pct ↔ loss_pct ≠ 0 := by
  unfold netemArgs
  by_cases hl : loss_pct ≠ 0 <;>
    by_cases hd : delay_ms ≠ 0 <;>
      cases child <;>
        simp [hl, hd]

/-- C7: `apply_netem` succeeds iff every `check=True` command it executed
succeeded — so a failing install command is always reported, while the
initial best-effort clear (recorded with `check=False`, always present in the
trace) is never reported even when it fails; and `reset_netem` never raises,
for every interface and every environment verdict. -/
theorem apply_raises_iff_install_fails (exec : List TcArg → Bool) (iface : String)
    (rtt_ms loss_pct bw_mbit delay_ms : ℚ) :
    (TcCall.mk (tcDelArgs iface) false
        ∈ (apply_netem exec iface rtt_ms loss_pct bw_mbit delay_ms).1)
    ∧ ((apply_netem exec iface rtt_ms loss_pct bw_mbit delay_ms).2 = Except.ok ()
        ↔ ∀ c ∈ (apply_netem exec iface rtt_ms loss_pct bw_mbit delay_ms).1,
            c.check = true → exec c.args = true)
    ∧ (reset_netem exec iface).2 = Except.ok () := by
  unfold apply_netem reset_netem
  by_cases hbw : bw_mbit ≠ 0 <;>
    simp only [hbw, if_true, if_false, runTcChecked, subprocessRun] <;>
    by_cases h1 : exec (htbRootArgs iface) <;>
    by_cases h2 : exec (htbClassArgs iface bw_mbit) <;>
    by_cases h3 : exec (netemArgs true iface delay_ms loss_pct) <;>
    by_cases h4 : exec (netemArgs false iface delay_ms loss_pct) <;>
      simp_all

/-- C7 witness: the theorem applied at a concrete environment in which the
best-effort clear fails but the installs succeed. -/
theorem apply_raises_iff_install_fails_witness :
    (TcCall.mk (tcDelArgs "lo") false
        ∈ (apply_netem (fun c => !(c == tcDelArgs "lo")) "lo" 10 1 20 5).1)
    ∧ ((apply_netem (fun c => !(c == tcDelArgs "lo")) "lo" 10 1 20 5).2 = Except.ok ()
        ↔ ∀ c ∈ (apply_netem (fun c => !(c == tcDelArgs "lo")) "lo" 10 1 20 5).1,
            c.check = true → (fun c => !(c == tcDelArgs "lo")) c.args = true)
    ∧ (reset_netem (fun c => !(c == tcDelArgs "lo")) "lo").2 = Except.ok () :=
  apply_raises_iff_install_fails (fun c => !(c == tcDelArgs "lo")) "lo" 10 1 20 5

/-! ## Data model of the runner (`runs.py`) -/

/-- A host record from `hosts.yml`: the runner reads `src["ip"]` /
`dest["ip"]` (the ssh/type fields are unused by the engine). -/
structure Host where
  ip : String
deriving DecidableEq

/-- A link record: the runner reads `link.get("type")` and
`link.get("iface")`, both possibly absent. -/
structure Link where
  typ : Option String
  iface : Option String
deriving DecidableEq

/-- An implementation template record: `impl.get("type", "local")`,
`impl.get("default_port", 4433)`, `impl["server_cmd"]`, `impl["client_cmd"]`
(the command templates are opaque text). -/
structure Impl where
  typ : Option String
  default_port : Option Nat
  server_cmd : String
  client_cmd : String
deriving DecidableEq

/-- The suite mapping: name, implementation id, src/dest host names, link
name, optional suite-level load defaults (`suite.get("load_rps")`,
`suite.get("duration")`) and the `compare_tcp` flag (absent = falsy). -/
structure Suite where
  name : String
  implementation : String
  src : String
  dest : String
  link : String
  load_rps : Option Int
  duration : Option Int
  compare_tcp : Bool
deriving DecidableEq

/-- One experiment's parameter mapping: the netem profile fields are read
with `params["…"]` (required), the load fields with `params.get` (optional
per-experiment overrides). -/
structure Params where
  rtt_ms : ℚ
  loss_pct : ℚ
  bw_mbit : ℚ
  delay_ms : ℚ
  load_rps : Option Int
  duration : Option Int
deriving DecidableEq

/-- The hosts/links registries as returned by `load_hosts()`. -/
structure HostsCfg where
  hosts : List (String × Host)
  links : List (String × Link)

/-- Dictionary lookup (`d.get(k)`): first binding of the key, if any.  A
Python dict has unique keys, so first-match lookup is exact. -/
def lookupKey {α : Type} : List (String × α) → String → Option α
  | [], _ => none
  | (k', v) :: rest, k => if k' = k then some v else lookupKey rest k

/-- Python truthiness of an optional string (`if iface:`): present and
non-empty. -/
def strTruthy : Option String → Bool
  | none => false
  | some s => !(s == "")

/-- A launched OS process, identified by the command that launched it. -/
inductive Proc where
  | implServer (tpl server_ip client_ip : String) (port : Nat) (qlog_dir exp_name : String)
  | implClient (tpl server_ip client_ip : String) (port : Nat) (qlog_dir exp_name : String)
      (rps duration : Int)
  | tcpServer
  | tcpClient (rps duration : Int) (filename : Option String)
deriving DecidableEq

/-- Observable effects of one experiment, in execution order. -/
inductive Event where
  | tc (c : TcCall)
  | status (suite_name exp_name st log_dir : String)
  | popen (p : Proc)
  | sleep (secs : Nat)
  | call (p : Proc)
  | terminate (p : Proc)
  | waitTimeout (p : Proc) (timeout : Nat)
  | kill (p : Proc)
  | wait (p : Proc)
  | reset (iface : String)
deriving DecidableEq

/-- The external world's behaviour for one experiment: `tc` command verdicts,
client exit codes, whether each server exits within the 5-second grace
period, and whether each modelled exception point fires.  The modelled raise
points are: command-template rendering (`str.format` raises `KeyError` on an
unknown placeholder — this happens before the cleanup region), `Popen` of the
primary server, the primary/baseline client call, and the terminal
`update_status` write. -/
structure Env where
  tcExec : List TcArg → Bool
  renderRaises : Bool
  serverPopenRaises : Bool
  clientRaises : Bool
  clientRc : Int
  serverExitsInTime : Bool
  latestQlog : Option String
  tcpClientRaises : Bool
  tcpClientRc : Int
  tcpServerExitsInTime : Bool
  terminalStatusRaises : Bool

/-- Exceptions that can escape the modelled code paths. -/
inductive RunError where
  | systemExit (msg : String)
  | keyError
  | procError
  | statusError
deriving DecidableEq

/-- The server teardown of both pair runs (`finally:` at `runs.py` lines
145–151 and 279–286): graceful terminate, wait with the fixed 5-second
timeout, and on `TimeoutExpired` a forced kill followed by an unconditional
wait. -/
def teardownEvents (exitsInTime : Bool) (p : Proc) : List Event :=
  [Event.terminate p, Event.waitTimeout p 5] ++
    (if exitsInTime then [] else [Event.kill p, Event.wait p])

/-- `run_tcp_baseline`: launches the fixed TCP/TLS server, sleeps 2s, runs
the fixed TCP client (whose metrics filename is derived from the newest
primary qlog, or omitted with a warning when none exists), tears the server
down in a `finally`, and returns `client_rc == 0` as data.  A raising client
call still runs the teardown, then propagates. -/
def run_tcp_baseline (env : Env) (load_rps load_duration : Int) :
    List Event × Except RunError Bool :=
  let filename := env.latestQlog.map (fun q => q ++ "_tcp.json")
  let cp := Proc.tcpClient load_rps load_duration filename
  let td := teardownEvents env.tcpServerExitsInTime Proc.tcpServer
  let pre := [Event.popen Proc.tcpServer, Event.sleep 2, Event.call cp]
  if env.tcpClientRaises then
    (pre ++ td, Except.error RunError.procError)
  else
    (pre ++ td, Except.ok (env.tcpClientRc == 0))

/-- The rendered server command (`server_cmd_tpl.format(...)`, lines
242–248): template plus the closed substitution set. -/
def renderedServerCmd (impl : Impl) (src dest : Host) (log_dir exp_name : String) : Proc :=
  Proc.implServer impl.server_cmd src.ip dest.ip (impl.default_port.getD 4433)
    (log_dir ++ "/server") exp_name

/-- Effective requests-per-second:
`params.get("load_rps", suite.get("load_rps", 100))`. -/
def effLoadRps (params : Params) (suite : Suite) : Int :=
  params.load_rps.getD (suite.load_rps.getD 100)

/-- Effective load duration:
`params.get("duration", suite.get("duration", 30))`. -/
def effLoadDuration (params : Params) (suite : Suite) : Int :=
  params.duration.getD (suite.duration.getD 30)

/-- The rendered client command (`client_cmd_tpl.format(...)`, lines
249–257), carrying the effective load parameters. -/
def renderedClientCmd (impl : Impl) (src dest : Host) (log_dir exp_name : String)
    (params : Params) (suite : Suite) : Proc :=
  Proc.implClient impl.client_cmd src.ip dest.ip (impl.default_port.getD 4433)
    (log_dir ++ "/client") exp_name (effLoadRps params suite) (effLoadDuration params suite)

/-- The `impl_type == "local"` supervision block (lines 269–300): launch the
server, sleep, run the client inside the inner try whose `finally` is the
escalating teardown; on a client exception the teardown still runs and the
exception propagates; otherwise `overall_ok = (client_rc == 0)`, optionally
AND-ed with the TCP baseline outcome when `compare_tcp` is set. -/
def superviseLocal (env : Env) (compare_tcp : Bool) (sp cp : Proc)
    (load_rps load_duration : Int) : List Event × Except RunError Bool :=
  if env.serverPopenRaises then
    ([], Except.error RunError.procError)
  else
    let base := [Event.popen sp, Event.sleep 2, Event.call cp]
      ++ teardownEvents env.serverExitsInTime sp
    if env.clientRaises then
      (base, Except.error RunError.procError)
    else
      let overall_ok := env.clientRc == 0
      if compare_tcp then
        match run_tcp_baseline env load_rps load_duration with
        | (bt, Except.error e) => (base ++ bt, Except.error e)
        | (bt, Except.ok tcp_ok) => (base ++ bt, Except.ok (overall_ok && tcp_ok))
      else
        (base, Except.ok overall_ok)

/-- The body of the outer `try` (lines 267–309): local supervision or — for
any other execution type — no launch and `overall_ok = False`; then the
terminal status write (`done` iff `overall_ok`), which is itself a modelled
raise point. -/
def tryBody (env : Env) (suite_name exp_name log_dir : String)
    (compare_tcp : Bool) (impl_type : String) (sp cp : Proc)
    (load_rps load_duration : Int) : List Event × Except RunError Unit :=
  match (if impl_type = "local" then
           superviseLocal env compare_tcp sp cp load_rps load_duration
         else
           ([], Except.ok false)) with
  | (t, Except.error e) => (t, Except.error e)
  | (t, Except.ok overall_ok) =>
    if env.terminalStatusRaises then
      (t, Except.error RunError.statusError)
    else
      (t ++ [Event.status suite_name exp_name
              (if overall_ok then "done" else "failed") log_dir],
       Except.ok ())

/-- Events of a `reset_netem(iface)` invocation as seen from the runner: the
revert call itself plus its best-effort `tc qdisc del`. -/
def resetNetemEvents (iface : String) : List Event :=
  [Event.reset iface, Event.tc ⟨tcDelArgs iface, false⟩]

/-- Lines 220–314 of `run_single_experiment`, after the netem decision:
effective load parameters, command rendering (a modelled raise point that
sits BEFORE the `try` at line 267, so a rendering exception skips the
`finally`), then the `try` body, then the `finally` that calls `reset_netem`
exactly when `netem_applied and iface`. -/
def restOfExperiment (env : Env) (impl : Impl) (src dest : Host) (suite : Suite)
    (exp_name log_dir : String) (params : Params)
    (netem_applied : Bool) (iface : Option String) :
    List Event × Except RunError Unit :=
  let load_rps := effLoadRps params suite
  let load_duration := effLoadDuration params suite
  if env.renderRaises then
    ([], Except.error RunError.keyError)
  else
    match tryBody env suite.name exp_name log_dir suite.compare_tcp
        (impl.typ.getD "local")
        (renderedServerCmd impl src dest log_dir exp_name)
        (renderedClientCmd impl src dest log_dir exp_name params suite)
        load_rps load_duration with
    | (bt, br) =>
      (bt ++ (if netem_applied && strTruthy iface then
                resetNetemEvents (iface.getD "") else []),
       br)

/-- `run_single_experiment(suite, exp_name, params, hosts_cfg)` (lines
161–314): `load_impl` raises `SystemExit` on an unknown implementation before
anything else happens; then the src/dest/link lookups, whose failure raises
`SystemExit` before any status is written; then the RUNNING status write, the
netem decision `if link_type == "local_iface" and iface:` (apply failure ⇒
FAILED status and an early normal return with no revert), and the rest of the
experiment with the applied flag. -/
def run_single_experiment (reg : List (String × Impl)) (env : Env)
    (suite : Suite) (exp_name : String) (params : Params)
    (hosts_cfg : HostsCfg) : List Event × Except RunError Unit :=
  match lookupKey reg suite.implementation with
  | none =>
    ([], Except.error (RunError.systemExit
      ("Implementation " ++ suite.implementation ++ " not found")))
  | some impl =>
    match lookupKey hosts_cfg.hosts suite.src,
          lookupKey hosts_cfg.hosts suite.dest,
          lookupKey hosts_cfg.links suite.link with
    | some src, some dest, some link =>
      let log_dir := "runs/" ++ suite.name ++ "/" ++ exp_name
      let t0 := [Event.status suite.name exp_name "running" log_dir]
      if (link.typ == some "local_iface") && strTruthy link.iface then
        match apply_netem env.tcExec (link.iface.getD "")
            params.rtt_ms params.loss_pct params.bw_mbit params.delay_ms with
        | (tct, Except.error _) =>
          (t0 ++ tct.map Event.tc
             ++ [Event.status suite.name exp_name "failed" log_dir],
           Except.ok ())
        | (tct, Except.ok _) =>
          match restOfExperiment env impl src dest suite exp_name
              log_dir params true link.iface with
          | (rt, rr) => (t0 ++ tct.map Event.tc ++ rt, rr)
      else
        match restOfExperiment env impl src dest suite exp_name
            log_dir params false link.iface with
        | (rt, rr) => (t0 ++ rt, rr)
    | _, _, _ =>
      ([], Except.error (RunError.systemExit
        "Invalid src or dest or link in suite; check hosts.yml"))

/-- `run_suite` (lines 318–329): iterate the experiments in order, running
each to completion; an uncaught exception from one experiment terminates the
whole loop (nothing catches it), while a normal return continues with the
next experiment.  Each experiment is paired with its own environment. -/
def run_suite (reg : List (String × Impl)) (envs : List Env) (suite : Suite)
    (exps : List (String × Params)) (hosts_cfg : HostsCfg) :
    List Event × Except RunError Unit :=
  match exps, envs with
  | (exp_name, params) :: rest, env :: envrest =>
    match run_single_experiment reg env suite exp_name params hosts_cfg with
    | (t, Except.ok _) =>
      match run_suite reg envrest suite rest hosts_cfg with
      | (t2, r2) => (t ++ t2, r2)
    | (t, Except.error e) => (t, Except.error e)
  | _, _ => ([], Except.ok ())

/-! ## The status store (`utils.py`, `update_status`) -/

/-- One experiment's status record: `{"status": …, "log_dir": str(…)}`. -/
structure ExpRecord where
  status : String
  log_dir : String
deriving DecidableEq

/-- The parsed content of one suite's `status.yml`: the `experiments` mapping
plus every other top-level key (opaque values).  An absent file parses to the
empty store. -/
structure StatusStore where
  experiments : List (String × ExpRecord)
  others : List (String × String)
deriving DecidableEq

/-- Python dict assignment `d[k] = v`: replace the binding in place if the
key is present, else append it. -/
def setKey {α : Type} : List (String × α) → String → α → List (String × α)
  | [], k, v => [(k, v)]
  | (k', v') :: rest, k, v =>
    if k' = k then (k, v) :: rest else (k', v') :: setKey rest k v

/-- `update_status(suite_name, exp_name, status, log_dir)`: load the suite's
status file (`st`), take `st.get("experiments", {})`, assign the record for
`exp_name`, store the mapping back under `"experiments"`, save.  The
`suite_name` argument selects the file; the caller passes that file's parsed
content as `st`. -/
def update_status (st : StatusStore) (suite_name exp_name status : String)
    (log_dir : String) : StatusStore :=
  let _ := suite_name
  ⟨setKey st.experiments exp_name ⟨status, log_dir⟩, st.others⟩

/-! ## Trace observations -/

/-- The status string carried by an event, if it is a status write. -/
def statusOf : Event → Option String
  | Event.status _ _ st _ => some st
  | _ => none

/-- The status strings written during a trace, in order. -/
def statusWrites (t : List Event) : List String :=
  t.filterMap statusOf

/-- Is this event a `reset_netem` invocation? -/
def isReset : Event → Bool
  | Event.reset _ => true
  | _ => false

/-- Is this event a process launch (`Popen`)? -/
def isPopen : Event → Bool
  | Event.popen _ => true
  | _ => false

/-- Is this event a foreground process run (`subprocess.call`)? -/
def isCall : Event → Bool
  | Event.call _ => true
  | _ => false

/-- Did an `Except` complete normally? -/
def isOkE {ε α : Type} : Except ε α → Bool
  | Except.ok _ => true
  | Except.error _ => false

/-- Derived characterisation of "emulation was successfully applied" for one
experiment: all bindings resolve, the link passes
`link_type == "local_iface" and iface`, and `apply_netem` returns without
error under the environment's command verdicts. -/
def emulationApplied (reg : List (String × Impl)) (env : Env) (suite : Suite)
    (params : Params) (hosts_cfg : HostsCfg) : Bool :=
  match lookupKey reg suite.implementation,
        lookupKey hosts_cfg.hosts suite.src,
        lookupKey hosts_cfg.hosts suite.dest,
        lookupKey hosts_cfg.links suite.link with
  | some _, some _, some _, some link =>
    ((link.typ == some "local_iface") && strTruthy link.iface) &&
      isOkE (apply_netem env.tcExec (link.iface.getD "")
        params.rtt_ms params.loss_pct params.bw_mbit params.delay_ms).2
  | _, _, _, _ => false

/-- The interface of the suite's link, when it resolves. -/
def linkIface (hosts_cfg : HostsCfg) (suite : Suite) : String :=
  match lookupKey hosts_cfg.links suite.link with
  | some link => link.iface.getD ""
  | none => ""

/-- The netem branch was taken and `apply_netem` failed (the
`CalledProcessError` handler at lines 213–216 fires). -/
def netemFails (env : Env) (link : Link) (params : Params) : Bool :=
  ((link.typ == some "local_iface") && strTruthy link.iface) &&
    !(isOkE (apply_netem env.tcExec (link.iface.getD "")
      params.rtt_ms params.loss_pct params.bw_mbit params.delay_ms).2)

/-! ## Trace bookkeeping lemmas -/

@[simp] theorem statusOf_tc (c : TcCall) : statusOf (Event.tc c) = none := rfl
@[simp] theorem statusOf_status (a b c d : String) : statusOf (Event.status a b c d) = some c := rfl
@[simp] theorem statusOf_popen (p : Proc) : statusOf (Event.popen p) = none := rfl
@[simp] theorem statusOf_sleep (n : Nat) : statusOf (Event.sleep n) = none := rfl
@[simp] theorem statusOf_call (p : Proc) : statusOf (Event.call p) = none := rfl
@[simp] theorem statusOf_terminate (p : Proc) : statusOf (Event.terminate p) = none := rfl
@[simp] theorem statusOf_waitTimeout (p : Proc) (n : Nat) : statusOf (Event.waitTimeout p n) = none := rfl
@[simp] theorem statusOf_kill (p : Proc) : statusOf (Event.kill p) = none := rfl
@[simp] theorem statusOf_wait (p : Proc) : statusOf (Event.wait p) = none := rfl
@[simp] theorem statusOf_reset (i : String) : statusOf (Event.reset i) = none := rfl

@[simp] theorem isReset_tc (c : TcCall) : isReset (Event.tc c) = false := rfl
@[simp] theorem isReset_status (a b c d : String) : isReset (Event.status a b c d) = false := rfl
@[simp] theorem isReset_popen (p : Proc) : isReset (Event.popen p) = false := rfl
@[simp] theorem isReset_sleep (n : Nat) : isReset (Event.sleep n) = false := rfl
@[simp] theorem isReset_call (p : Proc) : isReset (Event.call p) = false := rfl
@[simp] theorem isReset_terminate (p : Proc) : isReset (Event.terminate p) = false := rfl
@[simp] theorem isReset_waitTimeout (p : Proc) (n : Nat) : isReset (Event.waitTimeout p n) = false := rfl
@[simp] theorem isReset_kill (p : Proc) : isReset (Event.kill p) = false := rfl
@[simp] theorem isReset_wait (p : Proc) : isReset (Event.wait p) = false := rfl
@[simp] theorem isReset_reset (i : String) : isReset (Event.reset i) = true := rfl

@[simp] theorem isPopen_tc (c : TcCall) : isPopen (Event.tc c) = false := rfl
@[simp] theorem isPopen_status (a b c d : String) : isPopen (Event.status a b c d) = false := rfl
@[simp] theorem isPopen_popen (p : Proc) : isPopen (Event.popen p) = true := rfl
@[simp] theorem isPopen_sleep (n : Nat) : isPopen (Event.sleep n) = false := rfl
@[simp] theorem isPopen_call (p : Proc) : isPopen (Event.call p) = false := rfl
@[simp] theorem isPopen_terminate (p : Proc) : isPopen (Event.terminate p) = false := rfl
@[simp] theorem isPopen_waitTimeout (p : Proc) (n : Nat) : isPopen (Event.waitTimeout p n) = false := rfl
@[simp] theorem isPopen_kill (p : Proc) : isPopen (Event.kill p) = false := rfl
@[simp] theorem isPopen_wait (p : Proc) : isPopen (Event.wait p) = false := rfl
@[simp] theorem isPopen_reset (i : String) : isPopen (Event.reset i) = false := rfl

@[simp] theorem isCall_tc (c : TcCall) : isCall (Event.tc c) = false := rfl
@[simp] theorem isCall_status (a b c d : String) : isCall (Event.status a b c d) = false := rfl
@[simp] theorem isCall_popen (p : Proc) : isCall (Event.popen p) = false := rfl
@[simp] theorem isCall_sleep (n : Nat) : isCall (Event.sleep n) = false := rfl
@[simp] theorem isCall_call (p : Proc) : isCall (Event.call p) = true := rfl
@[simp] theorem isCall_terminate (p : Proc) : isCall (Event.terminate p) = false := rfl
@[simp] theorem isCall_waitTimeout (p : Proc) (n : Nat) : isCall (Event.waitTimeout p n) = false := rfl
@[simp] theorem isCall_kill (p : Proc) : isCall (Event.kill p) = false := rfl
@[simp] theorem isCall_wait (p : Proc) : isCall (Event.wait p) = false := rfl
@[simp] theorem isCall_reset (i : String) : isCall (Event.reset i) = false := rfl

@[simp] theorem statusWrites_nil : statusWrites [] = [] := rfl

@[simp] theorem statusWrites_cons (e : Event) (t : List Event) :
    statusWrites (e :: t)
      = ((statusOf e).map (fun s => [s])).getD [] ++ statusWrites t := by
  unfold statusWrites
  cases e <;> simp [List.filterMap_cons]

@[simp] theorem statusWrites_append (a b : List Event) :
    statusWrites (a ++ b) = statusWrites a ++ statusWrites b := by
  simp [statusWrites]

theorem statusWrites_map_tc (l : List TcCall) :
    statusWrites (l.map Event.tc) = [] := by
  induction l with
  | nil => rfl
  | cons c rest ih => simp [ih]

theorem countP_map_tc (p : Event → Bool) (h : ∀ c, p (Event.tc c) = false)
    (l : List TcCall) : (l.map Event.tc).countP p = 0 := by
  induction l with
  | nil => rfl
  | cons c rest ih => simp [List.countP_cons, h, ih]

theorem statusWrites_teardown (b : Bool) (p : Proc) :
    statusWrites (teardownEvents b p) = [] := by
  cases b <;> simp [teardownEvents]

theorem countReset_teardown (b : Bool) (p : Proc) :
    (teardownEvents b p).countP isReset = 0 := by
  cases b <;> simp [teardownEvents, List.countP_cons, List.countP_append]

theorem superviseLocal_countReset (env : Env) (c : Bool) (sp cp : Proc)
    (lr ld : Int) :
    ((superviseLocal env c sp cp lr ld).1).countP isReset = 0 := by
  unfold superviseLocal run_tcp_baseline
  by_cases h1 : env.serverPopenRaises <;>
    by_cases h2 : env.clientRaises <;>
      by_cases h3 : c <;>
        by_cases h4 : env.tcpClientRaises <;>
          simp [h1, h2, h3, h4, List.countP_append, List.countP_cons,
            countReset_teardown]

theorem superviseLocal_noStatus (env : Env) (c : Bool) (sp cp : Proc)
    (lr ld : Int) :
    statusWrites (superviseLocal env c sp cp lr ld).1 = [] := by
  unfold superviseLocal run_tcp_baseline
  by_cases h1 : env.serverPopenRaises <;>
    by_cases h2 : env.clientRaises <;>
      by_cases h3 : c <;>
        by_cases h4 : env.tcpClientRaises <;>
          simp [h1, h2, h3, h4, statusWrites_teardown]

theorem tryBody_countReset (env : Env) (sn en ld : String) (c : Bool)
    (it : String) (sp cp : Proc) (lr ldur : Int) :
    ((tryBody env sn en ld c it sp cp lr ldur).1).countP isReset = 0 := by
  unfold tryBody
  rcases hsl : (if it = "local" then superviseLocal env c sp cp lr ldur
                else ([], Except.ok false)) with ⟨t, r⟩
  have ht : t.countP isReset = 0 := by
    by_cases hit : it = "local"
    · have h0 := superviseLocal_countReset env c sp cp lr ldur
      rw [hit, if_pos rfl] at hsl
      rw [hsl] at h0
      exact h0
    · rw [if_neg hit] at hsl
      cases hsl; rfl
  cases r with
  | error e => simp [ht]
  | ok overall_ok =>
    by_cases hts : env.terminalStatusRaises <;>
      simp [hts, ht, List.countP_append, List.countP_cons]

theorem tryBody_noPopen (env : Env) (sn en ld : String) (c : Bool)
    (sp cp : Proc) (lr ldur : Int) (it : String) (hit : it ≠ "local") :
    ((tryBody env sn en ld c it sp cp lr ldur).1).countP isPopen = 0
    ∧ ((tryBody env sn en ld c it sp cp lr ldur).1).countP isCall = 0 := by
  unfold tryBody
  rw [if_neg hit]
  by_cases hts : env.terminalStatusRaises <;>
    simp [hts, List.countP_append, List.countP_cons]

theorem tryBody_nonlocal_statusWrites (env : Env) (sn en ld : String) (c : Bool)
    (sp cp : Proc) (lr ldur : Int) (it : String) (hit : it ≠ "local")
    (hts : env.terminalStatusRaises = false) :
    statusWrites (tryBody env sn en ld c it sp cp lr ldur).1 = ["failed"]
    ∧ (tryBody env sn en ld c it sp cp lr ldur).2 = Except.ok () := by
  unfold tryBody
  rw [if_neg hit]
  simp [hts]

theorem restOf_countReset (env : Env) (impl : Impl) (src dest : Host)
    (suite : Suite) (en ld : String) (params : Params)
    (applied : Bool) (iface : Option String)
    (hR : env.renderRaises = false) :
    ((restOfExperiment env impl src dest suite en ld params applied iface).1).countP
        isReset
      = if applied && strTruthy iface then 1 else 0 := by
  unfold restOfExperiment
  simp only [hR, Bool.false_eq_true, if_false]
  rcases htb : tryBody env suite.name en ld suite.compare_tcp
      (impl.typ.getD "local")
      (renderedServerCmd impl src dest ld en)
      (renderedClientCmd impl src dest ld en params suite)
      (effLoadRps params suite) (effLoadDuration params suite) with ⟨bt, br⟩
  have hbt := tryBody_countReset env suite.name en ld suite.compare_tcp
    (impl.typ.getD "local")
    (renderedServerCmd impl src dest ld en)
    (renderedClientCmd impl src dest ld en params suite)
    (effLoadRps params suite) (effLoadDuration params suite)
  rw [htb] at hbt
  simp only at hbt
  simp only [htb]
  by_cases ha : applied && strTruthy iface <;>
    · simp only [ha, if_true, if_false]
      rw [List.countP_append, hbt]
      simp [resetNetemEvents, List.countP_cons]

theorem restOf_reset_mem (env : Env) (impl : Impl) (src dest : Host)
    (suite : Suite) (en ld : String) (params : Params)
    (applied : Bool) (iface : Option String)
    (hR : env.renderRaises = false)
    (ha : (applied && strTruthy iface) = true) :
    Event.reset (iface.getD "")
      ∈ (restOfExperiment env impl src dest suite en ld params applied iface).1 := by
  unfold restOfExperiment
  simp only [hR, Bool.false_eq_true, if_false]
  rcases htb : tryBody env suite.name en ld suite.compare_tcp
      (impl.typ.getD "local")
      (renderedServerCmd impl src dest ld en)
      (renderedClientCmd impl src dest ld en params suite)
      (effLoadRps params suite) (effLoadDuration params suite) with ⟨bt, br⟩
  simp only [htb]
  simp [ha, resetNetemEvents]

/-! ## Concrete fixtures (used in counterexamples and witnesses) -/

/-- A local-execution implementation record. -/
def implLocal : Impl := ⟨some "local", some 4433, "srvT", "cliT"⟩

/-- The same record with a non-local execution type. -/
def implRemote : Impl := ⟨some "remote", some 4433, "srvT", "cliT"⟩

/-- A hosts/links registry with two hosts and one emulatable link. -/
def hostsC : HostsCfg :=
  ⟨[("h1", ⟨"10.0.0.1"⟩), ("h2", ⟨"10.0.0.2"⟩)],
   [("lo", ⟨some "local_iface", some "lo"⟩)]⟩

/-- An implementation registry binding the suite's implementation name. -/
def regC : List (String × Impl) := [("aioquic", implLocal)]

/-- A registry binding the same name to the non-local record. -/
def regRemote : List (String × Impl) := [("aioquic", implRemote)]

/-- A suite over the fixture registry, without baseline comparison. -/
def suiteC : Suite := ⟨"s1", "aioquic", "h1", "h2", "lo", some 100, some 30, false⟩

/-- The fixture experiment profile (scenario A of the spec). -/
def paramsC : Params := ⟨10, 0, 20, 5, none, none⟩

/-- A well-behaved environment: every `tc` command succeeds, no modelled
exception fires, the client exits 0, the servers exit within the timeout. -/
def envOk : Env :=
  ⟨fun _ => true, false, false, false, 0, true, none, false, 0, true, false⟩

/-- `envOk` with the command-template rendering raising (an unknown
placeholder in the template). -/
def envRenderRaise : Env :=
  ⟨fun _ => true, true, false, false, 0, true, none, false, 0, true, false⟩


/-- C1 counterexample: with emulation successfully applied, an exception in
command-template rendering (which happens BEFORE the `try` at `runs.py:267`
whose `finally` performs the revert) escapes `run_single_experiment` with no
`reset_netem` call at all — refuting "revert is invoked exactly once …
including when any of those steps raises an exception" as stated. -/
theorem run_single_render_raise_skips_revert_cex :
    emulationApplied regC envRenderRaise suiteC paramsC hostsC = true
    ∧ ((run_single_experiment regC envRenderRaise suiteC "e0" paramsC hostsC).1).countP
        isReset = 0
    ∧ (run_single_experiment regC envRenderRaise suiteC "e0" paramsC hostsC).2
        = Except.error RunError.keyError :=
  ⟨by decide, by decide, rfl⟩

/-- Core revert accounting: provided rendering does not raise, the trace of
one experiment contains exactly one `reset_netem` invocation when emulation
was successfully applied and none otherwise, and the revert is on the link's
interface. -/
theorem run_single_countReset
    (reg : List (String × Impl)) (env : Env) (suite : Suite)
    (exp_name : String) (params : Params) (hosts_cfg : HostsCfg)
    (hR : env.renderRaises = false) :
    ((run_single_experiment reg env suite exp_name params hosts_cfg).1).countP isReset
      = (if emulationApplied reg env suite params hosts_cfg then 1 else 0)
    ∧ (emulationApplied reg env suite params hosts_cfg = true →
        Event.reset (linkIface hosts_cfg suite)
          ∈ (run_single_experiment reg env suite exp_name params hosts_cfg).1) := by
  unfold run_single_experiment emulationApplied linkIface
  cases hI : lookupKey reg suite.implementation with
  | none => simp
  | some impl =>
  cases hS : lookupKey hosts_cfg.hosts suite.src with
  | none =>
    cases hD : lookupKey hosts_cfg.hosts suite.dest <;>
      cases hL : lookupKey hosts_cfg.links suite.link <;> simp
  | some src =>
  cases hD : lookupKey hosts_cfg.hosts suite.dest with
  | none => cases hL : lookupKey hosts_cfg.links suite.link <;> simp
  | some dest =>
  cases hL : lookupKey hosts_cfg.links suite.link with
  | none => simp
  | some link =>
  by_cases hbr : ((link.typ == some "local_iface") && strTruthy link.iface) = true
  · have hst : strTruthy link.iface = true := (Bool.and_eq_true _ _ |>.mp hbr).2
    rcases happly : apply_netem env.tcExec (link.iface.getD "")
        params.rtt_ms params.loss_pct params.bw_mbit params.delay_ms with ⟨tct, res⟩
    cases res with
    | error e =>
      simp [hbr, happly, isOkE, List.countP_append, List.countP_cons,
        countP_map_tc isReset (fun _ => rfl)]
    | ok u =>
      rcases hrest : restOfExperiment env impl src dest suite exp_name
          ("runs/" ++ suite.name ++ "/" ++ exp_name) params true link.iface with ⟨rt, rr⟩
      have h1 := restOf_countReset env impl src dest suite exp_name
        ("runs/" ++ suite.name ++ "/" ++ exp_name) params true link.iface hR
      have h2 := restOf_reset_mem env impl src dest suite exp_name
        ("runs/" ++ suite.name ++ "/" ++ exp_name) params true link.iface hR
        (by simp [hst])
      rw [hrest] at h1 h2
      simp only at h1 h2
      rw [hst] at h1
      simp only [Bool.and_true, if_true] at h1
      simp [hbr, happly, hrest, isOkE, List.countP_append, List.countP_cons,
        countP_map_tc isReset (fun _ => rfl), h1, h2]
  · rcases hrest : restOfExperiment env impl src dest suite exp_name
        ("runs/" ++ suite.name ++ "/" ++ exp_name) params false link.iface with ⟨rt, rr⟩
    have h1 := restOf_countReset env impl src dest suite exp_name
      ("runs/" ++ suite.name ++ "/" ++ exp_name) params false link.iface hR
    rw [hrest] at h1
    simp only at h1
    simp only [Bool.false_and, if_false] at h1
    simp [hbr, hrest, List.countP_append, List.countP_cons, h1]

/-- C1 amended: provided command-template rendering does not raise (rendering
happens before the cleanup region, so an exception there skips the revert),
`reset_netem` is invoked exactly once when emulation was successfully applied
— regardless of the outcome of process supervision and status writing,
including exceptions modelled at the `Popen`, client-call and terminal
status-write points — and never invoked when apply was not successfully
applied; any revert is on the link's interface. -/
theorem revert_exactly_once_unless_render_raises
    (reg : List (String × Impl)) (env : Env) (suite : Suite)
    (exp_name : String) (params : Params) (hosts_cfg : HostsCfg)
    (hR : env.renderRaises = false) :
    ((run_single_experiment reg env suite exp_name params hosts_cfg).1).countP isReset
      = (if emulationApplied reg env suite params hosts_cfg then 1 else 0)
    ∧ (emulationApplied reg env suite params hosts_cfg = true →
        Event.reset (linkIface hosts_cfg suite)
          ∈ (run_single_experiment reg env suite exp_name params hosts_cfg).1) :=
  run_single_countReset reg env suite exp_name params hosts_cfg hR

/-- C1 witness: the amended theorem applied at the well-behaved fixture run,
where emulation is applied and the trace contains exactly one revert. -/
theorem revert_exactly_once_witness :
    envOk.renderRaises = false
    ∧ (((run_single_experiment regC envOk suiteC "e0" paramsC hostsC).1).countP isReset
        = (if emulationApplied regC envOk suiteC paramsC hostsC then 1 else 0)
      ∧ (emulationApplied regC envOk suiteC paramsC hostsC = true →
          Event.reset (linkIface hostsC suiteC)
            ∈ (run_single_experiment regC envOk suiteC "e0" paramsC hostsC).1)) :=
  ⟨rfl, revert_exactly_once_unless_render_raises regC envOk suiteC "e0" paramsC hostsC rfl⟩

/-- If one experiment returns normally, the suite loop continues: the run of
`(exp, params) :: rest` is the experiment's trace followed by the run of
`rest` (`run_suite` iterates; only an uncaught exception stops it). -/
theorem run_suite_cons_ok (reg : List (String × Impl)) (env : Env)
    (envs : List Env) (suite : Suite) (n : String) (p : Params)
    (rest : List (String × Params)) (hosts_cfg : HostsCfg)
    (h : (run_single_experiment reg env suite n p hosts_cfg).2 = Except.ok ()) :
    run_suite reg (env :: envs) suite ((n, p) :: rest) hosts_cfg
      = ((run_single_experiment reg env suite n p hosts_cfg).1
          ++ (run_suite reg envs suite rest hosts_cfg).1,
         (run_suite reg envs suite rest hosts_cfg).2) := by
  rcases hrun : run_single_experiment reg env suite n p hosts_cfg with ⟨t, r⟩
  rw [hrun] at h
  simp only at h
  subst h
  rw [run_suite.eq_def]
  dsimp only
  rw [hrun]


/-- C2: when the link is emulatable (`local_iface` with a truthy interface)
and `apply_netem` fails, the experiment returns normally (so the suite loop
continues with the next experiment), its recorded statuses are exactly
RUNNING then FAILED, and its trace contains no process launch, no foreground
process call and no revert. -/
theorem emulation_error_fails_experiment
    (reg : List (String × Impl)) (env : Env) (envs : List Env) (suite : Suite)
    (exp_name : String) (params : Params) (rest : List (String × Params))
    (hosts_cfg : HostsCfg) (impl : Impl) (src dest : Host) (link : Link)
    (hImpl : lookupKey reg suite.implementation = some impl)
    (hSrc : lookupKey hosts_cfg.hosts suite.src = some src)
    (hDest : lookupKey hosts_cfg.hosts suite.dest = some dest)
    (hLink : lookupKey hosts_cfg.links suite.link = some link)
    (hFail : netemFails env link params = true) :
    (run_single_experiment reg env suite exp_name params hosts_cfg).2 = Except.ok ()
    ∧ statusWrites (run_single_experiment reg env suite exp_name params hosts_cfg).1
        = ["running", "failed"]
    ∧ ((run_single_experiment reg env suite exp_name params hosts_cfg).1).countP isPopen = 0
    ∧ ((run_single_experiment reg env suite exp_name params hosts_cfg).1).countP isCall = 0
    ∧ ((run_single_experiment reg env suite exp_name params hosts_cfg).1).countP isReset = 0
    ∧ run_suite reg (env :: envs) suite ((exp_name, params) :: rest) hosts_cfg
        = ((run_single_experiment reg env suite exp_name params hosts_cfg).1
            ++ (run_suite reg envs suite rest hosts_cfg).1,
           (run_suite reg envs suite rest hosts_cfg).2) := by
  unfold netemFails at hFail
  simp only [Bool.and_eq_true, Bool.not_eq_true'] at hFail
  obtain ⟨⟨hbr1, hbr2⟩, hko⟩ := hFail
  have hmain : ∃ tct : List TcCall,
      run_single_experiment reg env suite exp_name params hosts_cfg
        = ([Event.status suite.name exp_name "running"
              ("runs/" ++ suite.name ++ "/" ++ exp_name)]
            ++ tct.map Event.tc
            ++ [Event.status suite.name exp_name "failed"
                  ("runs/" ++ suite.name ++ "/" ++ exp_name)],
           Except.ok ()) := by
    unfold run_single_experiment
    rw [hImpl, hSrc, hDest, hLink]
    simp only [hbr1, hbr2, Bool.and_self, if_true]
    rcases happly : apply_netem env.tcExec (link.iface.getD "")
        params.rtt_ms params.loss_pct params.bw_mbit params.delay_ms with ⟨tct, res⟩
    cases res with
    | error e => exact ⟨tct, rfl⟩
    | ok u =>
      exfalso
      have h2 : (apply_netem env.tcExec (link.iface.getD "")
          params.rtt_ms params.loss_pct params.bw_mbit params.delay_ms).2
            = Except.ok u := by rw [happly]
      rw [h2] at hko
      simp [isOkE] at hko
  obtain ⟨tct, heq⟩ := hmain
  refine ⟨by simp [heq], ?_, ?_, ?_, ?_, ?_⟩
  · rw [heq]
    simp [statusWrites_map_tc]
  · rw [heq]
    simp [List.countP_append, List.countP_cons, countP_map_tc isPopen (fun _ => rfl)]
  · rw [heq]
    simp [List.countP_append, List.countP_cons, countP_map_tc isCall (fun _ => rfl)]
  · rw [heq]
    simp [List.countP_append, List.countP_cons, countP_map_tc isReset (fun _ => rfl)]
  · exact run_suite_cons_ok reg env envs suite exp_name params rest hosts_cfg
      (by simp [heq])

/-- An environment in which every `tc` command fails (so `apply_netem`
raises) but nothing else misbehaves. -/
def envTcFail : Env :=
  ⟨fun _ => false, false, false, false, 0, true, none, false, 0, true, false⟩

/-- C2 witness: the theorem applied at the fixture suite with failing `tc`
commands. -/
theorem emulation_error_fails_experiment_witness :
    netemFails envTcFail ⟨some "local_iface", some "lo"⟩ paramsC = true
    ∧ ((run_single_experiment regC envTcFail suiteC "e0" paramsC hostsC).2 = Except.ok ()
      ∧ statusWrites (run_single_experiment regC envTcFail suiteC "e0" paramsC hostsC).1
          = ["running", "failed"]
      ∧ ((run_single_experiment regC envTcFail suiteC "e0" paramsC hostsC).1).countP isPopen = 0
      ∧ ((run_single_experiment regC envTcFail suiteC "e0" paramsC hostsC).1).countP isCall = 0
      ∧ ((run_single_experiment regC envTcFail suiteC "e0" paramsC hostsC).1).countP isReset = 0
      ∧ run_suite regC [envTcFail] suiteC [("e0", paramsC)] hostsC
          = ((run_single_experiment regC envTcFail suiteC "e0" paramsC hostsC).1
              ++ (run_suite regC [] suiteC [] hostsC).1,
             (run_suite regC [] suiteC [] hostsC).2)) :=
  ⟨by decide,
   emulation_error_fails_experiment regC envTcFail [] suiteC "e0" paramsC [] hostsC
     implLocal ⟨"10.0.0.1"⟩ ⟨"10.0.0.2"⟩ ⟨some "local_iface", some "lo"⟩
     (by decide) (by decide) (by decide) (by decide) (by decide)⟩

/-- After the netem phase, a non-local implementation type leads to no
launch, the single terminal status write `failed`, and a normal return
(`overall_ok = False` at `runs.py:302-309`). -/
theorem restOf_nonlocal (env : Env) (impl : Impl) (src dest : Host)
    (suite : Suite) (en ld : String) (params : Params)
    (applied : Bool) (iface : Option String)
    (hR : env.renderRaises = false)
    (hNL : impl.typ.getD "local" ≠ "local")
    (hTS : env.terminalStatusRaises = false) :
    statusWrites (restOfExperiment env impl src dest suite en ld params applied iface).1
      = ["failed"]
    ∧ ((restOfExperiment env impl src dest suite en ld params applied iface).1).countP
        isPopen = 0
    ∧ ((restOfExperiment env impl src dest suite en ld params applied iface).1).countP
        isCall = 0
    ∧ (restOfExperiment env impl src dest suite en ld params applied iface).2
        = Except.ok () := by
  unfold restOfExperiment
  simp only [hR, Bool.false_eq_true, if_false]
  rcases htb : tryBody env suite.name en ld suite.compare_tcp
      (impl.typ.getD "local")
      (renderedServerCmd impl src dest ld en)
      (renderedClientCmd impl src dest ld en params suite)
      (effLoadRps params suite) (effLoadDuration params suite) with ⟨bt, br⟩
  have h1 := tryBody_nonlocal_statusWrites env suite.name en ld suite.compare_tcp
    (renderedServerCmd impl src dest ld en)
    (renderedClientCmd impl src dest ld en params suite)
    (effLoadRps params suite) (effLoadDuration params suite)
    (impl.typ.getD "local") hNL hTS
  have h2 := tryBody_noPopen env suite.name en ld suite.compare_tcp
    (renderedServerCmd impl src dest ld en)
    (renderedClientCmd impl src dest ld en params suite)
    (effLoadRps params suite) (effLoadDuration params suite)
    (impl.typ.getD "local") hNL
  rw [htb] at h1 h2
  simp only at h1 h2
  by_cases ha : applied && strTruthy iface <;>
    · simp only [ha, if_true, if_false]
      refine ⟨?_, ?_, ?_, h1.2⟩ <;>
        simp [h1.1, h2.1, h2.2, resetNetemEvents, List.countP_append,
          List.countP_cons]


/-- C3 amended: for every resolved experiment whose implementation execution
type is not "local" (and whose rendering and terminal status write do not
raise), no server or client process is spawned and no foreground call is
made, the recorded statuses are exactly RUNNING then FAILED — the runner has
no SKIPPED status — and emulation, when applicable, is still applied and
reverted exactly once. -/
theorem nonlocal_no_spawn_failed_status
    (reg : List (String × Impl)) (env : Env) (suite : Suite)
    (exp_name : String) (params : Params) (hosts_cfg : HostsCfg)
    (impl : Impl) (src dest : Host) (link : Link)
    (hImpl : lookupKey reg suite.implementation = some impl)
    (hSrc : lookupKey hosts_cfg.hosts suite.src = some src)
    (hDest : lookupKey hosts_cfg.hosts suite.dest = some dest)
    (hLink : lookupKey hosts_cfg.links suite.link = some link)
    (hNL : impl.typ.getD "local" ≠ "local")
    (hR : env.renderRaises = false)
    (hTS : env.terminalStatusRaises = false) :
    ((run_single_experiment reg env suite exp_name params hosts_cfg).1).countP isPopen = 0
    ∧ ((run_single_experiment reg env suite exp_name params hosts_cfg).1).countP isCall = 0
    ∧ statusWrites (run_single_experiment reg env suite exp_name params hosts_cfg).1
        = ["running", "failed"]
    ∧ ((run_single_experiment reg env suite exp_name params hosts_cfg).1).countP isReset
        = (if emulationApplied reg env suite params hosts_cfg then 1 else 0) := by
  have hcr := (run_single_countReset reg env suite exp_name params hosts_cfg hR).1
  refine ⟨?_, ?_, ?_, hcr⟩ <;>
  · unfold run_single_experiment
    rw [hImpl, hSrc, hDest, hLink]
    by_cases hbr : ((link.typ == some "local_iface") && strTruthy link.iface) = true
    · rcases happly : apply_netem env.tcExec (link.iface.getD "")
          params.rtt_ms params.loss_pct params.bw_mbit params.delay_ms with ⟨tct, res⟩
      cases res with
      | error e =>
        simp [hbr, happly, List.countP_append, List.countP_cons,
          countP_map_tc isPopen (fun _ => rfl), countP_map_tc isCall (fun _ => rfl),
          statusWrites_map_tc]
      | ok u =>
        rcases hrest : restOfExperiment env impl src dest suite exp_name
            ("runs/" ++ suite.name ++ "/" ++ exp_name) params true link.iface with ⟨rt, rr⟩
        have hro := restOf_nonlocal env impl src dest suite exp_name
          ("runs/" ++ suite.name ++ "/" ++ exp_name) params true link.iface hR hNL hTS
        rw [hrest] at hro
        simp only at hro
        simp [hbr, happly, hrest, List.countP_append, List.countP_cons,
          countP_map_tc isPopen (fun _ => rfl), countP_map_tc isCall (fun _ => rfl),
          statusWrites_map_tc, hro.1, hro.2.1, hro.2.2.1]
    · rcases hrest : restOfExperiment env impl src dest suite exp_name
          ("runs/" ++ suite.name ++ "/" ++ exp_name) params false link.iface with ⟨rt, rr⟩
      have hro := restOf_nonlocal env impl src dest suite exp_name
        ("runs/" ++ suite.name ++ "/" ++ exp_name) params false link.iface hR hNL hTS
      rw [hrest] at hro
      simp only at hro
      simp [hbr, hrest, List.countP_append, List.countP_cons, statusWrites_map_tc,
        hro.1, hro.2.1, hro.2.2.1]

/-- C3 counterexample: at a fully concrete experiment whose implementation
type is "remote", the recorded terminal status is `failed`, and no `skipped`
status is ever written — refuting "the recorded terminal status is SKIPPED
(not FAILED)". -/
theorem nonlocal_status_not_skipped_cex :
    statusWrites (run_single_experiment regRemote envOk suiteC "e0" paramsC hostsC).1
      = ["running", "failed"]
    ∧ "skipped" ∉ statusWrites (run_single_experiment regRemote envOk suiteC "e0" paramsC hostsC).1 := by
  decide

/-- C3 witness: the amended theorem applied at the concrete remote-type
fixture. -/
theorem nonlocal_no_spawn_failed_status_witness :
    implRemote.typ.getD "local" ≠ "local"
    ∧ (((run_single_experiment regRemote envOk suiteC "e0" paramsC hostsC).1).countP isPopen = 0
      ∧ ((run_single_experiment regRemote envOk suiteC "e0" paramsC hostsC).1).countP isCall = 0
      ∧ statusWrites (run_single_experiment regRemote envOk suiteC "e0" paramsC hostsC).1
          = ["running", "failed"]
      ∧ ((run_single_experiment regRemote envOk suiteC "e0" paramsC hostsC).1).countP isReset
          = (if emulationApplied regRemote envOk suiteC paramsC hostsC then 1 else 0)) :=
  ⟨by decide,
   nonlocal_no_spawn_failed_status regRemote envOk suiteC "e0" paramsC hostsC
     implRemote ⟨"10.0.0.1"⟩ ⟨"10.0.0.2"⟩ ⟨some "local_iface", some "lo"⟩
     (by decide) (by decide) (by decide) (by decide) (by decide) rfl rfl⟩

/-- With no modelled exception firing, local supervision returns (as data,
never as an exception) the conjunction of the primary outcome
`client_rc == 0` and — when comparison is enabled — the baseline outcome. -/
theorem superviseLocal_ok (env : Env) (c : Bool) (sp cp : Proc) (lr ld : Int)
    (hSP : env.serverPopenRaises = false) (hCR : env.clientRaises = false)
    (hTCR : env.tcpClientRaises = false) :
    (superviseLocal env c sp cp lr ld).2
      = Except.ok (if c then (env.clientRc == 0) && (env.tcpClientRc == 0)
                   else (env.clientRc == 0)) := by
  unfold superviseLocal run_tcp_baseline
  by_cases hc : c <;> simp [hSP, hCR, hTCR, hc]


/-- The `try` body for a local implementation type, with no raises: the
supervision trace followed by the terminal status write, `done` iff the
overall outcome is success. -/
theorem tryBody_local (env : Env) (sn en ld : String) (c : Bool) (sp cp : Proc)
    (lr ldur : Int)
    (hSP : env.serverPopenRaises = false) (hCR : env.clientRaises = false)
    (hTCR : env.tcpClientRaises = false)
    (hTS : env.terminalStatusRaises = false) :
    tryBody env sn en ld c "local" sp cp lr ldur
      = ((superviseLocal env c sp cp lr ldur).1
          ++ [Event.status sn en
                (if (if c then (env.clientRc == 0) && (env.tcpClientRc == 0)
                     else (env.clientRc == 0)) then "done" else "failed") ld],
         Except.ok ()) := by
  unfold tryBody
  rcases hsl : superviseLocal env c sp cp lr ldur with ⟨t, r⟩
  have hr := superviseLocal_ok env c sp cp lr ldur hSP hCR hTCR
  rw [hsl] at hr
  simp only at hr
  subst hr
  simp [hTS]


/-- After the netem phase, a local implementation with no raises records the
terminal status determined by the primary (and optionally baseline) outcome
and returns normally. -/
theorem restOf_local (env : Env) (impl : Impl) (src dest : Host)
    (suite : Suite) (en ld : String) (params : Params)
    (applied : Bool) (iface : Option String)
    (hR : env.renderRaises = false)
    (hL : impl.typ.getD "local" = "local")
    (hSP : env.serverPopenRaises = false) (hCR : env.clientRaises = false)
    (hTCR : env.tcpClientRaises = false)
    (hTS : env.terminalStatusRaises = false) :
    statusWrites (restOfExperiment env impl src dest suite en ld params applied iface).1
      = [if (if suite.compare_tcp then (env.clientRc == 0) && (env.tcpClientRc == 0)
             else (env.clientRc == 0)) then "done" else "failed"]
    ∧ (restOfExperiment env impl src dest suite en ld params applied iface).2
        = Except.ok () := by
  unfold restOfExperiment
  simp only [hR, Bool.false_eq_true, if_false]
  rw [hL]
  rw [tryBody_local env suite.name en ld suite.compare_tcp
    (renderedServerCmd impl src dest ld en)
    (renderedClientCmd impl src dest ld en params suite)
    (effLoadRps params suite) (effLoadDuration params suite) hSP hCR hTCR hTS]
  have hns := superviseLocal_noStatus env suite.compare_tcp
    (renderedServerCmd impl src dest ld en)
    (renderedClientCmd impl src dest ld en params suite)
    (effLoadRps params suite) (effLoadDuration params suite)
  by_cases ha : applied && strTruthy iface <;>
    · simp only [ha, if_true, if_false]
      constructor
      · simp [hns, resetNetemEvents]
      · trivial


/-- C4: for every resolved experiment with execution type "local" whose
supervision completes without an unexpected exception, the run returns
normally (a non-zero client exit code is data, not an exception) and the
recorded terminal status is DONE iff the primary client exited 0 and, when
baseline comparison is enabled, the baseline client also exited 0; in every
other combination it is FAILED. -/
theorem done_iff_client_and_baseline_ok
    (reg : List (String × Impl)) (env : Env) (suite : Suite)
    (exp_name : String) (params : Params) (hosts_cfg : HostsCfg)
    (impl : Impl) (src dest : Host) (link : Link)
    (hImpl : lookupKey reg suite.implementation = some impl)
    (hSrc : lookupKey hosts_cfg.hosts suite.src = some src)
    (hDest : lookupKey hosts_cfg.hosts suite.dest = some dest)
    (hLink : lookupKey hosts_cfg.links suite.link = some link)
    (hNF : netemFails env link params = false)
    (hL : impl.typ.getD "local" = "local")
    (hR : env.renderRaises = false)
    (hSP : env.serverPopenRaises = false) (hCR : env.clientRaises = false)
    (hTCR : env.tcpClientRaises = false)
    (hTS : env.terminalStatusRaises = false) :
    (run_single_experiment reg env suite exp_name params hosts_cfg).2 = Except.ok ()
    ∧ statusWrites (run_single_experiment reg env suite exp_name params hosts_cfg).1
        = ["running",
           if (if suite.compare_tcp then (env.clientRc == 0) && (env.tcpClientRc == 0)
               else (env.clientRc == 0)) then "done" else "failed"] := by
  unfold run_single_experiment
  rw [hImpl, hSrc, hDest, hLink]
  unfold netemFails at hNF
  by_cases hbr : ((link.typ == some "local_iface") && strTruthy link.iface) = true
  · rw [hbr] at hNF
    simp only [Bool.true_and, Bool.not_eq_false'] at hNF
    rcases happly : apply_netem env.tcExec (link.iface.getD "")
        params.rtt_ms params.loss_pct params.bw_mbit params.delay_ms with ⟨tct, res⟩
    cases res with
    | error e =>
      exfalso
      have h2 : (apply_netem env.tcExec (link.iface.getD "")
          params.rtt_ms params.loss_pct params.bw_mbit params.delay_ms).2
            = Except.error e := by rw [happly]
      rw [h2] at hNF
      simp [isOkE] at hNF
    | ok u =>
      rcases hrest : restOfExperiment env impl src dest suite exp_name
          ("runs/" ++ suite.name ++ "/" ++ exp_name) params true link.iface with ⟨rt, rr⟩
      have hro := restOf_local env impl src dest suite exp_name
        ("runs/" ++ suite.name ++ "/" ++ exp_name) params true link.iface
        hR hL hSP hCR hTCR hTS
      rw [hrest] at hro
      simp only at hro
      simp [hbr, happly, hrest, statusWrites_map_tc, hro.1, hro.2]
  · rcases hrest : restOfExperiment env impl src dest suite exp_name
        ("runs/" ++ suite.name ++ "/" ++ exp_name) params false link.iface with ⟨rt, rr⟩
    have hro := restOf_local env impl src dest suite exp_name
      ("runs/" ++ suite.name ++ "/" ++ exp_name) params false link.iface
      hR hL hSP hCR hTCR hTS
    rw [hrest] at hro
    simp only at hro
    simp [hbr, hrest, hro.1, hro.2]

/-- A suite with baseline comparison enabled. -/
def suiteCmp : Suite := ⟨"s1", "aioquic", "h1", "h2", "lo", some 100, some 30, true⟩

/-- An environment in which the primary client exits 0 but the TCP baseline
client exits 1 (scenario D of the spec). -/
def envBaselineFail : Env :=
  ⟨fun _ => true, false, false, false, 0, true, some "q.qlog", false, 1, true, false⟩

/-- C4 witness: the theorem applied with comparison enabled, primary exit 0
and baseline exit 1 — the recorded status is `failed`. -/
theorem done_iff_client_and_baseline_ok_witness :
    netemFails envBaselineFail ⟨some "local_iface", some "lo"⟩ paramsC = false
    ∧ implLocal.typ.getD "local" = "local"
    ∧ ((run_single_experiment regC envBaselineFail suiteCmp "e0" paramsC hostsC).2
        = Except.ok ()
      ∧ statusWrites (run_single_experiment regC envBaselineFail suiteCmp "e0" paramsC hostsC).1
          = ["running",
             if (if suiteCmp.compare_tcp
                 then (envBaselineFail.clientRc == 0) && (envBaselineFail.tcpClientRc == 0)
                 else (envBaselineFail.clientRc == 0)) then "done" else "failed"]) :=
  ⟨by decide, by decide,
   done_iff_client_and_baseline_ok regC envBaselineFail suiteCmp "e0" paramsC hostsC
     implLocal ⟨"10.0.0.1"⟩ ⟨"10.0.0.2"⟩ ⟨some "local_iface", some "lo"⟩
     (by decide) (by decide) (by decide) (by decide) (by decide) (by decide)
     rfl rfl rfl rfl rfl⟩

/-- Every exit path of the local supervision block (client returns or client
raises, with or without baseline) contains the primary pair-run events:
launch, warmup sleep, client call, then the escalating teardown. -/
theorem superviseLocal_trace_primary (env : Env) (c : Bool) (sp cp : Proc)
    (lr ld : Int) (hSP : env.serverPopenRaises = false) :
    ∃ post, (superviseLocal env c sp cp lr ld).1
      = [Event.popen sp, Event.sleep 2, Event.call cp]
          ++ teardownEvents env.serverExitsInTime sp ++ post := by
  unfold superviseLocal run_tcp_baseline
  by_cases hCR : env.clientRaises
  · exact ⟨[], by simp [hSP, hCR]⟩
  · by_cases hc : c
    · by_cases hTCR : env.tcpClientRaises
      · exact ⟨[Event.popen Proc.tcpServer, Event.sleep 2,
          Event.call (Proc.tcpClient lr ld
            (env.latestQlog.map (fun q => q ++ "_tcp.json")))]
            ++ teardownEvents env.tcpServerExitsInTime Proc.tcpServer,
          by simp [hSP, hCR, hc, hTCR]⟩
      · exact ⟨[Event.popen Proc.tcpServer, Event.sleep 2,
          Event.call (Proc.tcpClient lr ld
            (env.latestQlog.map (fun q => q ++ "_tcp.json")))]
            ++ teardownEvents env.tcpServerExitsInTime Proc.tcpServer,
          by simp [hSP, hCR, hc, hTCR]⟩
    · exact ⟨[], by simp [hSP, hCR, hc]⟩


/-- When comparison is enabled and the primary client returned, the trace
also contains the baseline pair-run with the same teardown discipline,
whether or not the baseline client raises. -/
theorem superviseLocal_trace_baseline (env : Env) (sp cp : Proc)
    (lr ld : Int) (hSP : env.serverPopenRaises = false)
    (hCR : env.clientRaises = false) :
    ∃ pre2 post2, (superviseLocal env true sp cp lr ld).1
      = pre2 ++ [Event.popen Proc.tcpServer, Event.sleep 2,
                 Event.call (Proc.tcpClient lr ld
                   (env.latestQlog.map (fun q => q ++ "_tcp.json")))]
          ++ teardownEvents env.tcpServerExitsInTime Proc.tcpServer ++ post2 := by
  unfold superviseLocal run_tcp_baseline
  by_cases hTCR : env.tcpClientRaises
  · exact ⟨[Event.popen sp, Event.sleep 2, Event.call cp]
        ++ teardownEvents env.serverExitsInTime sp, [],
      by simp [hSP, hCR, hTCR]⟩
  · exact ⟨[Event.popen sp, Event.sleep 2, Event.call cp]
        ++ teardownEvents env.serverExitsInTime sp, [],
      by simp [hSP, hCR, hTCR]⟩


/-- The `try` body of a local experiment extends the supervision trace only
on the right (possibly with the terminal status write). -/
theorem tryBody_local_trace (env : Env) (sn en ld : String) (c : Bool)
    (sp cp : Proc) (lr ldur : Int) :
    ∃ post, (tryBody env sn en ld c "local" sp cp lr ldur).1
      = (superviseLocal env c sp cp lr ldur).1 ++ post := by
  unfold tryBody
  rcases hsl : superviseLocal env c sp cp lr ldur with ⟨t, r⟩
  cases r with
  | error e => exact ⟨[], by simp⟩
  | ok b =>
    by_cases hTS : env.terminalStatusRaises
    · exact ⟨[], by simp [hTS]⟩
    · exact ⟨[Event.status sn en (if b then "done" else "failed") ld],
        by simp [hTS]⟩


/-- The post-netem phase extends the `try` body's trace only on the right
(with the `finally` revert), provided rendering does not raise. -/
theorem restOf_trace (env : Env) (impl : Impl) (src dest : Host)
    (suite : Suite) (en ld : String) (params : Params)
    (applied : Bool) (iface : Option String)
    (hR : env.renderRaises = false) :
    ∃ post, (restOfExperiment env impl src dest suite en ld params applied iface).1
      = (tryBody env suite.name en ld suite.compare_tcp (impl.typ.getD "local")
          (renderedServerCmd impl src dest ld en)
          (renderedClientCmd impl src dest ld en params suite)
          (effLoadRps params suite) (effLoadDuration params suite)).1 ++ post := by
  unfold restOfExperiment
  simp only [hR, Bool.false_eq_true, if_false]
  rcases htb : tryBody env suite.name en ld suite.compare_tcp (impl.typ.getD "local")
      (renderedServerCmd impl src dest ld en)
      (renderedClientCmd impl src dest ld en params suite)
      (effLoadRps params suite) (effLoadDuration params suite) with ⟨bt, br⟩
  exact ⟨(if applied && strTruthy iface then
      resetNetemEvents (iface.getD "") else []), rfl⟩


/-- When the netem phase does not abort the experiment, the full trace is the
RUNNING status (and any netem commands) followed by the post-netem phase. -/
theorem run_single_trace (reg : List (String × Impl)) (env : Env) (suite : Suite)
    (exp_name : String) (params : Params) (hosts_cfg : HostsCfg)
    (impl : Impl) (src dest : Host) (link : Link)
    (hImpl : lookupKey reg suite.implementation = some impl)
    (hSrc : lookupKey hosts_cfg.hosts suite.src = some src)
    (hDest : lookupKey hosts_cfg.hosts suite.dest = some dest)
    (hLink : lookupKey hosts_cfg.links suite.link = some link)
    (hNF : netemFails env link params = false) :
    ∃ pre applied, (run_single_experiment reg env suite exp_name params hosts_cfg).1
      = pre ++ (restOfExperiment env impl src dest suite exp_name
          ("runs/" ++ suite.name ++ "/" ++ exp_name) params applied link.iface).1 := by
  unfold run_single_experiment
  rw [hImpl, hSrc, hDest, hLink]
  unfold netemFails at hNF
  by_cases hbr : ((link.typ == some "local_iface") && strTruthy link.iface) = true
  · rw [hbr] at hNF
    simp only [Bool.true_and, Bool.not_eq_false'] at hNF
    rcases happly : apply_netem env.tcExec (link.iface.getD "")
        params.rtt_ms params.loss_pct params.bw_mbit params.delay_ms with ⟨tct, res⟩
    cases res with
    | error e =>
      exfalso
      have h2 : (apply_netem env.tcExec (link.iface.getD "")
          params.rtt_ms params.loss_pct params.bw_mbit params.delay_ms).2
            = Except.error e := by rw [happly]
      rw [h2] at hNF
      simp [isOkE] at hNF
    | ok u =>
      rcases hrest : restOfExperiment env impl src dest suite exp_name
          ("runs/" ++ suite.name ++ "/" ++ exp_name) params true link.iface with ⟨rt, rr⟩
      exact ⟨[Event.status suite.name exp_name "running"
          ("runs/" ++ suite.name ++ "/" ++ exp_name)] ++ tct.map Event.tc, true,
        by simp [hbr, happly, hrest]⟩
  · rcases hrest : restOfExperiment env impl src dest suite exp_name
        ("runs/" ++ suite.name ++ "/" ++ exp_name) params false link.iface with ⟨rt, rr⟩
    exact ⟨[Event.status suite.name exp_name "running"
        ("runs/" ++ suite.name ++ "/" ++ exp_name)], false,
      by simp [hbr, hrest]⟩


/-- C5: in every resolved local-type experiment that reaches supervision
(rendering and server `Popen` do not raise), the trace contains the primary
pair run — server launch, warmup sleep, client call, then teardown — on every
exit path (whether the client returns any exit code or raises, with or
without baseline, with or without a status-write exception); when comparison
is enabled and the primary client returned, the baseline pair run with the
same teardown is also present; and the teardown is: graceful terminate, wait
bounded by the fixed 5-second timeout, then — exactly on timeout — a forced
kill followed by an unconditional wait, so the server is never left running
when the pair run returns. -/
theorem server_teardown_on_every_path
    (reg : List (String × Impl)) (env : Env) (suite : Suite)
    (exp_name : String) (params : Params) (hosts_cfg : HostsCfg)
    (impl : Impl) (src dest : Host) (link : Link)
    (hImpl : lookupKey reg suite.implementation = some impl)
    (hSrc : lookupKey hosts_cfg.hosts suite.src = some src)
    (hDest : lookupKey hosts_cfg.hosts suite.dest = some dest)
    (hLink : lookupKey hosts_cfg.links suite.link = some link)
    (hNF : netemFails env link params = false)
    (hL : impl.typ.getD "local" = "local")
    (hR : env.renderRaises = false)
    (hSP : env.serverPopenRaises = false) :
    (∃ pre post, (run_single_experiment reg env suite exp_name params hosts_cfg).1
      = pre
        ++ [Event.popen (renderedServerCmd impl src dest
              ("runs/" ++ suite.name ++ "/" ++ exp_name) exp_name),
            Event.sleep 2,
            Event.call (renderedClientCmd impl src dest
              ("runs/" ++ suite.name ++ "/" ++ exp_name) exp_name params suite)]
        ++ teardownEvents env.serverExitsInTime
            (renderedServerCmd impl src dest
              ("runs/" ++ suite.name ++ "/" ++ exp_name) exp_name)
        ++ post)
    ∧ (suite.compare_tcp = true → env.clientRaises = false →
        ∃ pre2 post2, (run_single_experiment reg env suite exp_name params hosts_cfg).1
          = pre2
            ++ [Event.popen Proc.tcpServer, Event.sleep 2,
                Event.call (Proc.tcpClient (effLoadRps params suite)
                  (effLoadDuration params suite)
                  (env.latestQlog.map (fun q => q ++ "_tcp.json")))]
            ++ teardownEvents env.tcpServerExitsInTime Proc.tcpServer
            ++ post2)
    ∧ (∀ p : Proc, teardownEvents true p
          = [Event.terminate p, Event.waitTimeout p 5]
        ∧ teardownEvents false p
          = [Event.terminate p, Event.waitTimeout p 5, Event.kill p, Event.wait p]) := by
  obtain ⟨pre0, applied, h0⟩ := run_single_trace reg env suite exp_name params hosts_cfg
    impl src dest link hImpl hSrc hDest hLink hNF
  obtain ⟨post1, h1⟩ := restOf_trace env impl src dest suite exp_name
    ("runs/" ++ suite.name ++ "/" ++ exp_name) params applied link.iface hR
  rw [hL] at h1
  obtain ⟨post2, h2⟩ := tryBody_local_trace env suite.name exp_name
    ("runs/" ++ suite.name ++ "/" ++ exp_name) suite.compare_tcp
    (renderedServerCmd impl src dest ("runs/" ++ suite.name ++ "/" ++ exp_name) exp_name)
    (renderedClientCmd impl src dest ("runs/" ++ suite.name ++ "/" ++ exp_name) exp_name params suite)
    (effLoadRps params suite) (effLoadDuration params suite)
  refine ⟨?_, ?_, ?_⟩
  · obtain ⟨post3, h3⟩ := superviseLocal_trace_primary env suite.compare_tcp
      (renderedServerCmd impl src dest ("runs/" ++ suite.name ++ "/" ++ exp_name) exp_name)
      (renderedClientCmd impl src dest ("runs/" ++ suite.name ++ "/" ++ exp_name) exp_name params suite)
      (effLoadRps params suite) (effLoadDuration params suite) hSP
    exact ⟨pre0, post3 ++ post2 ++ post1,
      by rw [h0, h1, h2, h3]; simp [List.append_assoc]⟩
  · intro hcmp hcr
    rw [hcmp] at h1 h2
    obtain ⟨p2, q2, hb⟩ := superviseLocal_trace_baseline env
      (renderedServerCmd impl src dest ("runs/" ++ suite.name ++ "/" ++ exp_name) exp_name)
      (renderedClientCmd impl src dest ("runs/" ++ suite.name ++ "/" ++ exp_name) exp_name params suite)
      (effLoadRps params suite) (effLoadDuration params suite) hSP hcr
    exact ⟨pre0 ++ p2, q2 ++ post2 ++ post1,
      by rw [h0, h1, h2, hb]; simp [List.append_assoc]⟩
  · intro p
    exact ⟨by simp [teardownEvents], by simp [teardownEvents]⟩

/-- C5 witness: the theorem applied at the comparison-enabled fixture. -/
theorem server_teardown_on_every_path_witness :
    netemFails envOk ⟨some "local_iface", some "lo"⟩ paramsC = false
    ∧ implLocal.typ.getD "local" = "local"
    ∧ ((∃ pre post, (run_single_experiment regC envOk suiteCmp "e0" paramsC hostsC).1
        = pre
          ++ [Event.popen (renderedServerCmd implLocal ⟨"10.0.0.1"⟩ ⟨"10.0.0.2"⟩
                ("runs/" ++ suiteCmp.name ++ "/" ++ "e0") "e0"),
              Event.sleep 2,
              Event.call (renderedClientCmd implLocal ⟨"10.0.0.1"⟩ ⟨"10.0.0.2"⟩
                ("runs/" ++ suiteCmp.name ++ "/" ++ "e0") "e0" paramsC suiteCmp)]
          ++ teardownEvents envOk.serverExitsInTime
              (renderedServerCmd implLocal ⟨"10.0.0.1"⟩ ⟨"10.0.0.2"⟩
                ("runs/" ++ suiteCmp.name ++ "/" ++ "e0") "e0")
          ++ post)
      ∧ (suiteCmp.compare_tcp = true → envOk.clientRaises = false →
          ∃ pre2 post2, (run_single_experiment regC envOk suiteCmp "e0" paramsC hostsC).1
            = pre2
              ++ [Event.popen Proc.tcpServer, Event.sleep 2,
                  Event.call (Proc.tcpClient (effLoadRps paramsC suiteCmp)
                    (effLoadDuration paramsC suiteCmp)
                    (envOk.latestQlog.map (fun q => q ++ "_tcp.json")))]
              ++ teardownEvents envOk.tcpServerExitsInTime Proc.tcpServer
              ++ post2)
      ∧ (∀ p : Proc, teardownEvents true p
            = [Event.terminate p, Event.waitTimeout p 5]
          ∧ teardownEvents false p
            = [Event.terminate p, Event.waitTimeout p 5, Event.kill p, Event.wait p])) :=
  ⟨by decide, by decide,
   server_teardown_on_every_path regC envOk suiteCmp "e0" paramsC hostsC
     implLocal ⟨"10.0.0.1"⟩ ⟨"10.0.0.2"⟩ ⟨some "local_iface", some "lo"⟩
     (by decide) (by decide) (by decide) (by decide) (by decide) (by decide)
     rfl rfl⟩

/-- An experiment that raises stops the suite loop: nothing of the remaining
experiments runs. -/
theorem run_suite_cons_err (reg : List (String × Impl)) (env : Env)
    (envs : List Env) (suite : Suite) (n : String) (p : Params)
    (rest : List (String × Params)) (hosts_cfg : HostsCfg) (e : RunError)
    (h : (run_single_experiment reg env suite n p hosts_cfg).2 = Except.error e) :
    run_suite reg (env :: envs) suite ((n, p) :: rest) hosts_cfg
      = ((run_single_experiment reg env suite n p hosts_cfg).1, Except.error e) := by
  rcases hrun : run_single_experiment reg env suite n p hosts_cfg with ⟨t, r⟩
  rw [hrun] at h
  simp only at h
  subst h
  rw [run_suite.eq_def]
  dsimp only
  rw [hrun]


/-- C8: an unresolved implementation, src, dest or link name makes
`run_single_experiment` raise `SystemExit` before producing any event — in
particular no status record, not even RUNNING, is written — and the error
aborts the entire suite run: the suite's trace is exactly this experiment's
(empty) trace and no subsequent experiment is started. -/
theorem config_error_aborts_suite
    (reg : List (String × Impl)) (env : Env) (envs : List Env) (suite : Suite)
    (exp_name : String) (params : Params) (rest : List (String × Params))
    (hosts_cfg : HostsCfg)
    (hUn : lookupKey reg suite.implementation = none
        ∨ lookupKey hosts_cfg.hosts suite.src = none
        ∨ lookupKey hosts_cfg.hosts suite.dest = none
        ∨ lookupKey hosts_cfg.links suite.link = none) :
    (run_single_experiment reg env suite exp_name params hosts_cfg).1 = []
    ∧ statusWrites (run_single_experiment reg env suite exp_name params hosts_cfg).1 = []
    ∧ (∃ msg, (run_single_experiment reg env suite exp_name params hosts_cfg).2
        = Except.error (RunError.systemExit msg))
    ∧ run_suite reg (env :: envs) suite ((exp_name, params) :: rest) hosts_cfg
        = ((run_single_experiment reg env suite exp_name params hosts_cfg).1,
           (run_single_experiment reg env suite exp_name params hosts_cfg).2) := by
  have hmain : (run_single_experiment reg env suite exp_name params hosts_cfg).1 = []
      ∧ ∃ msg, (run_single_experiment reg env suite exp_name params hosts_cfg).2
          = Except.error (RunError.systemExit msg) := by
    unfold run_single_experiment
    cases hI : lookupKey reg suite.implementation with
    | none => exact ⟨rfl, _, rfl⟩
    | some impl =>
      cases hS : lookupKey hosts_cfg.hosts suite.src with
      | none =>
        cases hD : lookupKey hosts_cfg.hosts suite.dest <;>
          cases hL : lookupKey hosts_cfg.links suite.link <;>
            exact ⟨rfl, _, rfl⟩
      | some src =>
        cases hD : lookupKey hosts_cfg.hosts suite.dest with
        | none =>
          cases hL : lookupKey hosts_cfg.links suite.link <;> exact ⟨rfl, _, rfl⟩
        | some dest =>
          cases hL : lookupKey hosts_cfg.links suite.link with
          | none => exact ⟨rfl, _, rfl⟩
          | some link =>
            rw [hI] at hUn
            rw [hS] at hUn
            rw [hD] at hUn
            rw [hL] at hUn
            rcases hUn with h | h | h | h <;> cases h
  obtain ⟨h1, msg, h2⟩ := hmain
  refine ⟨h1, ?_, ⟨msg, h2⟩, ?_⟩
  · rw [h1]; rfl
  · rw [run_suite_cons_err reg env envs suite exp_name params rest hosts_cfg
      (RunError.systemExit msg) h2, h2]

/-- C8 witness: an empty implementation registry, with one more experiment
queued behind the failing one that never runs. -/
theorem config_error_aborts_suite_witness :
    lookupKey ([] : List (String × Impl)) suiteC.implementation = none
    ∧ ((run_single_experiment [] envOk suiteC "e0" paramsC hostsC).1 = []
      ∧ statusWrites (run_single_experiment [] envOk suiteC "e0" paramsC hostsC).1 = []
      ∧ (∃ msg, (run_single_experiment [] envOk suiteC "e0" paramsC hostsC).2
          = Except.error (RunError.systemExit msg))
      ∧ run_suite [] [envOk, envOk] suiteC [("e0", paramsC), ("e1", paramsC)] hostsC
          = ((run_single_experiment [] envOk suiteC "e0" paramsC hostsC).1,
             (run_single_experiment [] envOk suiteC "e0" paramsC hostsC).2)) :=
  ⟨rfl, config_error_aborts_suite [] envOk [envOk] suiteC "e0" paramsC
     [("e1", paramsC)] hostsC (Or.inl rfl)⟩

/-- C9: the client command is rendered (and invoked) with the effective load
parameters, which equal the experiment-level override when the experiment's
parameter mapping contains one and otherwise the suite-level default
(`params.get("load_rps", suite.get("load_rps", 100))` and likewise for
`duration`). -/
theorem effective_load_params
    (reg : List (String × Impl)) (env : Env) (suite : Suite)
    (exp_name : String) (params : Params) (hosts_cfg : HostsCfg)
    (impl : Impl) (src dest : Host) (link : Link)
    (hImpl : lookupKey reg suite.implementation = some impl)
    (hSrc : lookupKey hosts_cfg.hosts suite.src = some src)
    (hDest : lookupKey hosts_cfg.hosts suite.dest = some dest)
    (hLink : lookupKey hosts_cfg.links suite.link = some link)
    (hNF : netemFails env link params = false)
    (hL : impl.typ.getD "local" = "local")
    (hR : env.renderRaises = false)
    (hSP : env.serverPopenRaises = false) :
    Event.call (renderedClientCmd impl src dest
        ("runs/" ++ suite.name ++ "/" ++ exp_name) exp_name params suite)
      ∈ (run_single_experiment reg env suite exp_name params hosts_cfg).1
    ∧ renderedClientCmd impl src dest
        ("runs/" ++ suite.name ++ "/" ++ exp_name) exp_name params suite
      = Proc.implClient impl.client_cmd src.ip dest.ip (impl.default_port.getD 4433)
          (("runs/" ++ suite.name ++ "/" ++ exp_name) ++ "/client") exp_name
          (effLoadRps params suite) (effLoadDuration params suite)
    ∧ (∀ v, params.load_rps = some v → effLoadRps params suite = v)
    ∧ (params.load_rps = none → ∀ d, suite.load_rps = some d →
        effLoadRps params suite = d)
    ∧ (∀ v, params.duration = some v → effLoadDuration params suite = v)
    ∧ (params.duration = none → ∀ d, suite.duration = some d →
        effLoadDuration params suite = d) := by
  obtain ⟨pre0, applied, h0⟩ := run_single_trace reg env suite exp_name params hosts_cfg
    impl src dest link hImpl hSrc hDest hLink hNF
  obtain ⟨post1, h1⟩ := restOf_trace env impl src dest suite exp_name
    ("runs/" ++ suite.name ++ "/" ++ exp_name) params applied link.iface hR
  rw [hL] at h1
  obtain ⟨post2, h2⟩ := tryBody_local_trace env suite.name exp_name
    ("runs/" ++ suite.name ++ "/" ++ exp_name) suite.compare_tcp
    (renderedServerCmd impl src dest ("runs/" ++ suite.name ++ "/" ++ exp_name) exp_name)
    (renderedClientCmd impl src dest ("runs/" ++ suite.name ++ "/" ++ exp_name) exp_name params suite)
    (effLoadRps params suite) (effLoadDuration params suite)
  obtain ⟨post3, h3⟩ := superviseLocal_trace_primary env suite.compare_tcp
    (renderedServerCmd impl src dest ("runs/" ++ suite.name ++ "/" ++ exp_name) exp_name)
    (renderedClientCmd impl src dest ("runs/" ++ suite.name ++ "/" ++ exp_name) exp_name params suite)
    (effLoadRps params suite) (effLoadDuration params suite) hSP
  refine ⟨?_, rfl, ?_, ?_, ?_, ?_⟩
  · rw [h0, h1, h2, h3]
    simp
  · intro v hv
    unfold effLoadRps
    rw [hv]
    rfl
  · intro hn d hd
    unfold effLoadRps
    rw [hn, hd]
    rfl
  · intro v hv
    unfold effLoadDuration
    rw [hv]
    rfl
  · intro hn d hd
    unfold effLoadDuration
    rw [hn, hd]
    rfl

/-- An experiment profile carrying per-experiment load overrides. -/
def paramsOv : Params := ⟨10, 0, 20, 5, some 250, some 60⟩

/-- C9 witness: the theorem applied at a fixture whose experiment overrides
both load parameters; the rendered client command carries the overrides. -/
theorem effective_load_params_witness :
    netemFails envOk ⟨some "local_iface", some "lo"⟩ paramsOv = false
    ∧ (Event.call (renderedClientCmd implLocal ⟨"10.0.0.1"⟩ ⟨"10.0.0.2"⟩
          ("runs/" ++ suiteC.name ++ "/" ++ "e0") "e0" paramsOv suiteC)
        ∈ (run_single_experiment regC envOk suiteC "e0" paramsOv hostsC).1
      ∧ renderedClientCmd implLocal ⟨"10.0.0.1"⟩ ⟨"10.0.0.2"⟩
          ("runs/" ++ suiteC.name ++ "/" ++ "e0") "e0" paramsOv suiteC
        = Proc.implClient implLocal.client_cmd (Host.mk "10.0.0.1").ip
            (Host.mk "10.0.0.2").ip (implLocal.default_port.getD 4433)
            (("runs/" ++ suiteC.name ++ "/" ++ "e0") ++ "/client") "e0"
            (effLoadRps paramsOv suiteC) (effLoadDuration paramsOv suiteC)
      ∧ (∀ v, paramsOv.load_rps = some v → effLoadRps paramsOv suiteC = v)
      ∧ (paramsOv.load_rps = none → ∀ d, suiteC.load_rps = some d →
          effLoadRps paramsOv suiteC = d)
      ∧ (∀ v, paramsOv.duration = some v → effLoadDuration paramsOv suiteC = v)
      ∧ (paramsOv.duration = none → ∀ d, suiteC.duration = some d →
          effLoadDuration paramsOv suiteC = d)) :=
  ⟨by decide,
   effective_load_params regC envOk suiteC "e0" paramsOv hostsC
     implLocal ⟨"10.0.0.1"⟩ ⟨"10.0.0.2"⟩ ⟨some "local_iface", some "lo"⟩
     (by decide) (by decide) (by decide) (by decide) (by decide) (by decide)
     rfl rfl⟩

/-- Dict assignment binds the assigned key. -/
theorem lookup_setKey_self {α : Type} (m : List (String × α)) (k : String) (v : α) :
    lookupKey (setKey m k v) k = some v := by
  induction m with
  | nil => simp [setKey, lookupKey]
  | cons a rest ih =>
    rcases a with ⟨k', v'⟩
    by_cases h : k' = k
    · simp [setKey, h, lookupKey]
    · simp [setKey, h, lookupKey, ih]


/-- Dict assignment leaves every other key's binding unchanged. -/
theorem lookup_setKey_other {α : Type} (m : List (String × α)) (k q : String)
    (v : α) (h : q ≠ k) :
    lookupKey (setKey m k v) q = lookupKey m q := by
  induction m with
  | nil => simp [setKey, lookupKey, Ne.symm h]
  | cons a rest ih =>
    rcases a with ⟨k', v'⟩
    by_cases hk : k' = k
    · subst hk
      simp [setKey, lookupKey, Ne.symm h]
    · simp [setKey, hk, lookupKey, ih]


/-- C10: `update_status` modifies only the record keyed by `exp_name` in the
suite's status store — it binds that key to the new status/log-dir record,
leaves every other experiment's entry unchanged, and preserves every
top-level key of the store other than the `experiments` mapping. -/
theorem update_status_frame (st : StatusStore) (suite_name exp_name status : String)
    (log_dir : String) :
    (update_status st suite_name exp_name status log_dir).others = st.others
    ∧ lookupKey (update_status st suite_name exp_name status log_dir).experiments
        exp_name = some ⟨status, log_dir⟩
    ∧ ∀ k, k ≠ exp_name →
        lookupKey (update_status st suite_name exp_name status log_dir).experiments k
          = lookupKey st.experiments k := by
  refine ⟨rfl, ?_, ?_⟩
  · exact lookup_setKey_self st.experiments exp_name ⟨status, log_dir⟩
  · intro k hk
    exact lookup_setKey_other st.experiments exp_name k ⟨status, log_dir⟩ hk

/-- A concrete status store with two experiments and another top-level key. -/
def storeC : StatusStore :=
  ⟨[("e0", ⟨"running", "runs/s1/e0"⟩), ("e1", ⟨"done", "runs/s1/e1"⟩)],
   [("version", "1")]⟩

/-- C10 witness: the frame theorem applied at a concrete store, with the
untouched-key conjunct instantiated at the other experiment. -/
theorem update_status_frame_witness :
    (update_status storeC "s1" "e0" "failed" "runs/s1/e0").others = storeC.others
    ∧ lookupKey (update_status storeC "s1" "e0" "failed" "runs/s1/e0").experiments "e0"
        = some ⟨"failed", "runs/s1/e0"⟩
    ∧ ("e1" ≠ "e0"
      ∧ lookupKey (update_status storeC "s1" "e0" "failed" "runs/s1/e0").experiments "e1"
          = lookupKey storeC.experiments "e1") :=
  ⟨(update_status_frame storeC "s1" "e0" "failed" "runs/s1/e0").1,
   (update_status_frame storeC "s1" "e0" "failed" "runs/s1/e0").2.1,
   by decide,
   (update_status_frame storeC "s1" "e0" "failed" "runs/s1/e0").2.2 "e1" (by decide)⟩
